import Mathlib

/-!
Verification of the alert evaluation, cooldown, relay and SSE fan-out slice of
the price-aggregator service.

Shallow embedding conventions:
* Go `float64` values (prices, thresholds) are modelled as rationals `ℚ`;
  the code only compares them with `<=` / `>=`, which ℚ models faithfully.
* `time.Time` values are modelled as integer nanosecond counts `ℤ`;
  `time.Since(t)` at instant `now` is `now - t`, and `30 * time.Second`
  is `30 * 1000000000` nanoseconds.
* The RFC3339-formatted timestamp string placed in outgoing messages is an
  opaque `String` parameter.
* Maps are modelled as functions to `Option`, channels as bounded lists.
-/

namespace PriceAggregator

/-- Alert record, from `internal/models/models.go` (the fields the evaluation
path reads; `ID`/`CreatedAt`/`UpdatedAt` are not consulted by
`processPriceUpdate`). `UpperThreshold`/`LowerThreshold` are nullable
pointers, hence `Option`. -/
structure Alert where
  UserID : String
  Symbol : String
  UpperThreshold : Option ℚ
  LowerThreshold : Option ℚ
deriving DecidableEq

/-- Price update consumed from Kafka, from `cmd/ingestion` style struct
`PriceUpdate` in the alerts consumer. -/
structure PriceUpdate where
  Exchange : String
  Symbol : String
  Price : ℚ
  Timestamp : String
deriving DecidableEq

/-- `handlers.AlertMessage`: the notification event streamed to clients,
with JSON fields `user_id, symbol, threshold, triggered, timestamp`. -/
structure AlertMessage where
  UserID : String
  Symbol : String
  Threshold : ℚ
  Triggered : String
  Timestamp : String
deriving DecidableEq

/-- `const cooldown = 30 * time.Second`, in nanoseconds. -/
def cooldown : ℤ := 30 * 1000000000

/-- `var lastAlertTime = make(map[string]time.Time)`: the cooldown store,
modelled as a function from keys to the optional last-fired instant. -/
def CooldownMap : Type := String → Option ℤ

/-- The empty cooldown map (fresh process state). -/
def emptyCooldown : CooldownMap := fun _ => none

/-- `lastAlertTime[alertKey] = time.Now()`: upsert of the last-fired instant. -/
def recordFired (m : CooldownMap) (key : String) (now : ℤ) : CooldownMap :=
  fun k => if k = key then some now else m k

/-- `alertKey := fmt.Sprintf("%s_%s", alert.UserID, alert.Symbol)`. -/
def alertKey (userID symbol : String) : String :=
  userID ++ "_" ++ symbol

/-- The cooldown check in `processPriceUpdate`: an entry exists for the key
and `time.Since(lastTime) < cooldown`. -/
def shouldSuppress (m : CooldownMap) (key : String) (now : ℤ) : Bool :=
  match m key with
  | some lastTime => decide (now - lastTime < cooldown)
  | none => false

/-- `sendSSEAlert(userID, symbol, threshold, triggered)`: builds the
`AlertMessage` handed to `BroadcastAlert`; the timestamp string is
`time.Now().Format(time.RFC3339)`, passed in here as `nowStr`. -/
def sendSSEAlert (userID symbol : String) (threshold : ℚ) (direction : String)
    (nowStr : String) : AlertMessage :=
  ⟨userID, symbol, threshold, direction, nowStr⟩

/-- The lower-threshold branch of `processPriceUpdate`:
`if alert.LowerThreshold != nil && priceUpdate.Price <= *alert.LowerThreshold`
then one `below` event is sent (with the lower threshold value and the
tick's symbol). -/
def lowerEvents (alert : Alert) (p : PriceUpdate) (nowStr : String) :
    List AlertMessage :=
  match alert.LowerThreshold with
  | some lo =>
      if p.Price ≤ lo then [sendSSEAlert alert.UserID p.Symbol lo "below" nowStr]
      else []
  | none => []

/-- The upper-threshold branch of `processPriceUpdate`:
`if alert.UpperThreshold != nil && priceUpdate.Price >= *alert.UpperThreshold`
then one `above` event is sent. -/
def upperEvents (alert : Alert) (p : PriceUpdate) (nowStr : String) :
    List AlertMessage :=
  match alert.UpperThreshold with
  | some hi =>
      if hi ≤ p.Price then [sendSSEAlert alert.UserID p.Symbol hi "above" nowStr]
      else []
  | none => []

/-- The events one alert produces on one tick when not suppressed: the lower
branch runs first, then the upper branch, each contributing at most one
event; no deduplication between the two. -/
def evalAlert (alert : Alert) (p : PriceUpdate) (nowStr : String) :
    List AlertMessage :=
  lowerEvents alert p nowStr ++ upperEvents alert p nowStr

/-- Result of running the body of the `for _, alert := range alerts` loop for
a single alert: the events sent, the cooldown map afterwards, and how many
times `lastAlertTime[alertKey] = time.Now()` executed. -/
structure AlertStepResult where
  events : List AlertMessage
  state : CooldownMap
  recordedFires : ℕ

/-- One iteration of the alert loop in `processPriceUpdate`: compute the key,
`continue` if the cooldown is active, otherwise evaluate both threshold
branches and, `if triggered`, record the fire time once. -/
def processAlert (st : CooldownMap) (alert : Alert) (p : PriceUpdate)
    (now : ℤ) (nowStr : String) : AlertStepResult :=
  let key := alertKey alert.UserID alert.Symbol
  if shouldSuppress st key now then
    ⟨[], st, 0⟩
  else
    let events := evalAlert alert p nowStr
    if events.isEmpty then ⟨events, st, 0⟩
    else ⟨events, recordFired st key now, 1⟩

/-- The whole alert loop of `processPriceUpdate` over the list returned by
`GetAlertsBySymbol`, threading the cooldown map left to right. -/
def processAlerts (p : PriceUpdate) (now : ℤ) (nowStr : String) :
    CooldownMap → List Alert → List AlertMessage × CooldownMap
  | st, [] => ([], st)
  | st, alert :: rest =>
      let r := processAlert st alert p now nowStr
      let restRes := processAlerts p now nowStr r.state rest
      (r.events ++ restRes.1, restRes.2)

/-! JSON serialization (`encoding/json` over `AlertMessage`)

`json.Marshal` of an `AlertMessage` emits an object with the five tagged
fields in struct order (none is `omitempty`); `json.Unmarshal` fills each
struct field from the object entry with the matching key, leaving the Go
zero value when the key is absent and failing on a type mismatch. JSON
numbers are modelled as exact rationals (Go's float64 encoder/decoder is
value-preserving on round trips). -/

/-- A JSON value as used by these messages: strings and numbers. -/
inductive JsonValue where
  | str : String → JsonValue
  | num : ℚ → JsonValue
deriving DecidableEq

/-- `json.Marshal(alert)` for `handlers.AlertMessage`: the serialized object,
as the ordered list of key/value pairs. -/
def marshalAlertMessage (a : AlertMessage) : List (String × JsonValue) :=
  [("user_id", JsonValue.str a.UserID),
   ("symbol", JsonValue.str a.Symbol),
   ("threshold", JsonValue.num a.Threshold),
   ("triggered", JsonValue.str a.Triggered),
   ("timestamp", JsonValue.str a.Timestamp)]

/-- First entry of a JSON object with the given key, if any. -/
def lookupField (fields : List (String × JsonValue)) (key : String) :
    Option JsonValue :=
  (fields.find? (fun kv => kv.1 = key)).map Prod.snd

/-- Decode one string-typed struct field: absent key leaves the zero value
`""`; a non-string value is an unmarshal error. -/
def decodeStringField (fields : List (String × JsonValue)) (key : String) :
    Option String :=
  match lookupField fields key with
  | none => some ""
  | some (JsonValue.str s) => some s
  | some _ => none

/-- Decode one float64-typed struct field: absent key leaves the zero value
`0`; a non-number value is an unmarshal error. -/
def decodeNumberField (fields : List (String × JsonValue)) (key : String) :
    Option ℚ :=
  match lookupField fields key with
  | none => some 0
  | some (JsonValue.num q) => some q
  | some _ => none

/-- `json.Unmarshal(payload, &alert)` into `handlers.AlertMessage`
(the subscribe side, `listenForAlerts`). -/
def unmarshalAlertMessage (fields : List (String × JsonValue)) :
    Option AlertMessage :=
  match decodeStringField fields "user_id", decodeStringField fields "symbol",
        decodeNumberField fields "threshold",
        decodeStringField fields "triggered",
        decodeStringField fields "timestamp" with
  | some u, some s, some th, some tr, some ts => some ⟨u, s, th, tr, ts⟩
  | _, _, _, _, _ => none

/-! SSE fan-out (`handlers/sse.go`) -/

/-- One SSE client's delivery channel `make(chan AlertMessage, 10)`: a
bounded buffer of pending messages plus an identity for the connection. -/
structure ClientSink where
  id : ℕ
  pending : List AlertMessage
  capacity : ℕ
deriving DecidableEq

/-- The non-blocking send Go select with the send as one case and a default branch:
enqueue when the buffer has room, otherwise leave the sink unchanged and
report failure. -/
def trySend (s : ClientSink) (a : AlertMessage) : ClientSink × Bool :=
  if s.pending.length < s.capacity then
    ({ s with pending := s.pending ++ [a] }, true)
  else (s, false)

/-- `broadcastToClients(alert)`: iterate the registered sinks, attempt a
non-blocking send into each, and log one "Alert dropped due to slow client"
warning per full sink. Returns the updated sinks and the number of drop
records. (The early return on an empty registry sends to nobody, which this
recursion also yields on `[]`.) -/
def broadcastToClients (a : AlertMessage) :
    List ClientSink → List ClientSink × ℕ
  | [] => ([], 0)
  | c :: rest =>
      let r := trySend c a
      let restRes := broadcastToClients a rest
      (r.1 :: restRes.1, (if r.2 then 0 else 1) + restRes.2)

/-- The heartbeat message built in `StreamAlertsHandler`:
an `AlertMessage` whose `Timestamp` is `time.Now().Format(time.RFC3339)` — all other
fields keep their Go zero values. -/
def heartbeatMessage (nowStr : String) : AlertMessage :=
  { UserID := "", Symbol := "", Threshold := 0, Triggered := "",
    Timestamp := nowStr }

/-- Observable behaviour of one connection's heartbeat goroutine over a run:
how many ticker ticks led to an attempted send, how many heartbeats entered
the buffer, and how many `Disconnect`-style deregistrations the goroutine
performed. -/
structure HeartbeatTrace where
  attempts : ℕ
  delivered : ℕ
  disconnects : ℕ
deriving DecidableEq

/-- The heartbeat goroutine of `StreamAlertsHandler`, driven by the list of
ticker ticks it would receive while the request is alive; each entry says
whether `clientChan` had buffer room at that tick. Per tick it attempts the
non-blocking send; on the `default` branch (buffer full) it returns,
ending the goroutine, so later ticks are never attempted. It never touches
the `clients` registry: on no path does it deregister the connection. -/
def heartbeatRun : List Bool → HeartbeatTrace
  | [] => ⟨0, 0, 0⟩
  | free :: rest =>
      if free then
        let r := heartbeatRun rest
        ⟨r.attempts + 1, r.delivered + 1, r.disconnects⟩
      else ⟨1, 0, 0⟩

/-! Relay publish side (`BroadcastAlert` in `handlers/sse.go`) -/

/-- An error arising inside `BroadcastAlert`: `json.Marshal` failure or
`cache.PublishMessage` (Redis publish) failure. -/
inductive PublishErr where
  | marshalFailed
  | transportFailed
deriving DecidableEq

/-- What one call to `BroadcastAlert` does, as seen from outside: the
payload that reached the transport (if any), the errors handed to the
logger, and the error value handed back to the caller. -/
structure BroadcastOutcome where
  publishedPayload : Option (List (String × JsonValue))
  logged : List PublishErr
  returnedToCaller : Option PublishErr
deriving DecidableEq

/-- `BroadcastAlert(alert)`: marshals the alert (total here — `json.Marshal`
cannot fail on these field types) and publishes it to the Redis channel.
`cache.PublishMessage`'s error is logged and then discarded; the Go
function's return type is void, so on every path nothing is returned to
the caller. `transportOk` says whether the Redis publish succeeds. -/
def BroadcastAlert (transportOk : Bool) (a : AlertMessage) : BroadcastOutcome :=
  let payload := marshalAlertMessage a
  if transportOk then ⟨some payload, [], none⟩
  else ⟨none, [PublishErr.transportFailed], none⟩

/-- The Kafka consume loop of the alerts evaluator, one entry per price
tick: `(tick, now, nowStr, transportOk)`. For each tick it runs the alert
loop and hands every produced event to `BroadcastAlert`; the loop `continue`s
unconditionally — no publish outcome stops or skips later ticks. Returns the
per-tick lists of publish outcomes and the final cooldown map. -/
def consumeLoop (lookupAlerts : String → List Alert) :
    CooldownMap → List (PriceUpdate × ℤ × String × Bool) →
      List (List BroadcastOutcome) × CooldownMap
  | st, [] => ([], st)
  | st, (p, now, nowStr, tOk) :: rest =>
      let r := processAlerts p now nowStr st (lookupAlerts p.Symbol)
      let outs := r.1.map (BroadcastAlert tOk)
      let restRes := consumeLoop lookupAlerts r.2 rest
      (outs :: restRes.1, restRes.2)

/-! Connection registry (`clients` map in `handlers/sse.go`) -/

/-- One mutation of the `clients` map: `clients[ch] = true` on connect,
`delete(clients, ch)` on disconnect. Channels are identified by an
allocation id (each `make(chan ...)` yields a fresh one). -/
inductive RegistryOp where
  | connect : ℕ → RegistryOp
  | disconnect : ℕ → RegistryOp
deriving DecidableEq

/-- Apply one registry mutation to the set of connected sinks. -/
def applyOp (s : Finset ℕ) : RegistryOp → Finset ℕ
  | RegistryOp.connect i => insert i s
  | RegistryOp.disconnect i => s.erase i

/-- Apply a sequence of registry mutations left to right. -/
def applyOps : Finset ℕ → List RegistryOp → Finset ℕ
  | s, [] => s
  | s, op :: rest => applyOps (applyOp s op) rest

/-- A well-formed operation sequence: every connect uses a fresh channel
(as `make(chan ...)` guarantees) and every disconnect names a sink that is
currently connected (as the `defer` in `StreamAlertsHandler` guarantees —
each connection deletes exactly the channel it inserted). -/
def validOps : Finset ℕ → List RegistryOp → Bool
  | _, [] => true
  | s, RegistryOp.connect i :: rest =>
      decide (i ∉ s) && validOps (insert i s) rest
  | s, RegistryOp.disconnect i :: rest =>
      decide (i ∈ s) && validOps (s.erase i) rest

/-- Number of `connect` operations in a sequence. -/
def countConnects (ops : List RegistryOp) : ℕ :=
  ops.countP (fun op => match op with
    | RegistryOp.connect _ => true
    | RegistryOp.disconnect _ => false)

/-- Number of `disconnect` operations in a sequence. -/
def countDisconnects (ops : List RegistryOp) : ℕ :=
  ops.countP (fun op => match op with
    | RegistryOp.connect _ => false
    | RegistryOp.disconnect _ => true)

/-! Shared lemmas about the cooldown check and the per-alert loop body. -/

/-- The cooldown check succeeds exactly when an entry exists and is recent. -/
theorem shouldSuppress_eq_true_iff (m : CooldownMap) (key : String) (now : ℤ) :
    shouldSuppress m key now = true ↔
      ∃ t, m key = some t ∧ now - t < cooldown := by
  unfold shouldSuppress
  cases h : m key with
  | none => simp
  | some t => simp

/-- A suppressed alert is skipped whole: no events, no state change, no
recorded fire. -/
theorem processAlert_of_suppressed (st : CooldownMap) (a : Alert)
    (p : PriceUpdate) (now : ℤ) (nowStr : String)
    (h : shouldSuppress st (alertKey a.UserID a.Symbol) now = true) :
    processAlert st a p now nowStr = ⟨[], st, 0⟩ := by
  unfold processAlert
  simp [h]

/-- Right after a fire is recorded for a key, the cooldown check suppresses
that key for any instant within the window. -/
theorem shouldSuppress_recordFired (st : CooldownMap) (key : String)
    (now now' : ℤ) (h : now' - now < cooldown) :
    shouldSuppress (recordFired st key now) key now' = true := by
  simp [shouldSuppress, recordFired, h]

/-- An unsuppressed alert's emitted events are exactly the two threshold
branches' events, whether or not it fires. -/
theorem processAlert_events_of_not_suppressed (st : CooldownMap) (a : Alert)
    (p : PriceUpdate) (now : ℤ) (nowStr : String)
    (hs : shouldSuppress st (alertKey a.UserID a.Symbol) now = false) :
    (processAlert st a p now nowStr).events = evalAlert a p nowStr := by
  unfold processAlert
  simp only [hs, Bool.false_eq_true, if_false]
  split <;> rfl

/-- An unsuppressed alert that fires records the fire time once and its
resulting state is the single-key upsert. -/
theorem processAlert_of_fired (st : CooldownMap) (a : Alert)
    (p : PriceUpdate) (now : ℤ) (nowStr : String)
    (hs : shouldSuppress st (alertKey a.UserID a.Symbol) now = false)
    (hf : evalAlert a p nowStr ≠ []) :
    processAlert st a p now nowStr
      = ⟨evalAlert a p nowStr,
         recordFired st (alertKey a.UserID a.Symbol) now, 1⟩ := by
  unfold processAlert
  simp only [hs, Bool.false_eq_true, if_false]
  rw [if_neg]
  simp [List.isEmpty_iff, hf]

/-- C2: an alert is suppressed — skipped entirely, emitting no event in
either direction and leaving the cooldown state untouched — exactly when a
cooldown entry exists for its (user, symbol) key and `now` minus the
entry's last-fired time is strictly below the cooldown window; the skip
covers both directions jointly. -/
theorem suppression_iff_recent_fire (st : CooldownMap) (a : Alert)
    (p : PriceUpdate) (now : ℤ) (nowStr : String) :
    (shouldSuppress st (alertKey a.UserID a.Symbol) now = true ↔
      ∃ t, st (alertKey a.UserID a.Symbol) = some t ∧ now - t < cooldown)
    ∧ (shouldSuppress st (alertKey a.UserID a.Symbol) now = true →
        processAlert st a p now nowStr = ⟨[], st, 0⟩) := by
  exact ⟨shouldSuppress_eq_true_iff st (alertKey a.UserID a.Symbol) now,
    processAlert_of_suppressed st a p now nowStr⟩

/-- Witness for `suppression_iff_recent_fire`: a fire recorded at 0 for
`u1_BTC-USD` suppresses the same alert 10 ns later. -/
theorem suppression_iff_recent_fire_witness :
    shouldSuppress (recordFired emptyCooldown "u1_BTC-USD" 0)
        (alertKey "u1" "BTC-USD") 10 = true
    ∧ processAlert (recordFired emptyCooldown "u1_BTC-USD" 0)
        ⟨"u1", "BTC-USD", none, some 5⟩ ⟨"bn", "BTC-USD", 4, "t"⟩ 10 "t0"
        = ⟨[], recordFired emptyCooldown "u1_BTC-USD" 0, 0⟩ :=
  ⟨by decide,
   (suppression_iff_recent_fire (recordFired emptyCooldown "u1_BTC-USD" 0)
      ⟨"u1", "BTC-USD", none, some 5⟩ ⟨"bn", "BTC-USD", 4, "t"⟩ 10 "t0").2
     (by decide)⟩

/-- C3: an unsuppressed alert that fires in at least one direction records
the fire time exactly once for its (user, symbol) key (the state becomes
the single-key upsert, and the record count is 1 whether one or two
directions fired); afterwards, any alert mapping to the same key is fully
suppressed — no event in either direction — at any instant within the
cooldown window. -/
theorem record_once_and_cooldown_blocks (st : CooldownMap) (a : Alert)
    (p : PriceUpdate) (now : ℤ) (nowStr : String)
    (hs : shouldSuppress st (alertKey a.UserID a.Symbol) now = false)
    (hf : evalAlert a p nowStr ≠ []) :
    (processAlert st a p now nowStr).recordedFires = 1
    ∧ (processAlert st a p now nowStr).state
        = recordFired st (alertKey a.UserID a.Symbol) now
    ∧ ∀ (a' : Alert) (p' : PriceUpdate) (now' : ℤ) (nowStr' : String),
        alertKey a'.UserID a'.Symbol = alertKey a.UserID a.Symbol →
        now' - now < cooldown →
        processAlert (processAlert st a p now nowStr).state a' p' now' nowStr'
          = ⟨[], (processAlert st a p now nowStr).state, 0⟩ := by
  have hmain := processAlert_of_fired st a p now nowStr hs hf
  refine ⟨by rw [hmain], by rw [hmain], ?_⟩
  intro a' p' now' nowStr' hk ht
  apply processAlert_of_suppressed
  rw [hk, hmain]
  exact shouldSuppress_recordFired st (alertKey a.UserID a.Symbol) now now' ht

/-- Witness for `record_once_and_cooldown_blocks`: a lower-threshold fire at
t = 0 records once, and the same alert is silent at t = 10 ns. -/
theorem record_once_and_cooldown_blocks_witness :
    (processAlert emptyCooldown ⟨"u1", "BTC-USD", none, some 5⟩
        ⟨"bn", "BTC-USD", 4, "t"⟩ 0 "t0").recordedFires = 1
    ∧ processAlert
        (processAlert emptyCooldown ⟨"u1", "BTC-USD", none, some 5⟩
          ⟨"bn", "BTC-USD", 4, "t"⟩ 0 "t0").state
        ⟨"u1", "BTC-USD", none, some 5⟩ ⟨"bn", "BTC-USD", 3, "t"⟩ 10 "t1"
        = ⟨[], (processAlert emptyCooldown ⟨"u1", "BTC-USD", none, some 5⟩
            ⟨"bn", "BTC-USD", 4, "t"⟩ 0 "t0").state, 0⟩ :=
  ⟨(record_once_and_cooldown_blocks emptyCooldown
      ⟨"u1", "BTC-USD", none, some 5⟩ ⟨"bn", "BTC-USD", 4, "t"⟩ 0 "t0"
      (by decide) (by decide)).1,
   (record_once_and_cooldown_blocks emptyCooldown
      ⟨"u1", "BTC-USD", none, some 5⟩ ⟨"bn", "BTC-USD", 4, "t"⟩ 0 "t0"
      (by decide) (by decide)).2.2
     ⟨"u1", "BTC-USD", none, some 5⟩ ⟨"bn", "BTC-USD", 3, "t"⟩ 10 "t1"
     rfl (by decide)⟩

/-- C10: the cooldown key concatenates user and symbol with one underscore,
so distinct (user, symbol) pairs can collide — e.g. ("a_b", "c") and
("a", "b_c") — and a fire recorded under one colliding pair's key fully
suppresses any alert mapping to that key within the cooldown window. -/
theorem cooldown_key_collision :
    alertKey "a_b" "c" = alertKey "a" "b_c"
    ∧ (("a_b", "c") : String × String) ≠ ("a", "b_c")
    ∧ ∀ (st : CooldownMap) (a1 a2 : Alert) (p : PriceUpdate) (now now' : ℤ)
        (nowStr : String),
        alertKey a2.UserID a2.Symbol = alertKey a1.UserID a1.Symbol →
        now' - now < cooldown →
        processAlert (recordFired st (alertKey a1.UserID a1.Symbol) now)
            a2 p now' nowStr
          = ⟨[], recordFired st (alertKey a1.UserID a1.Symbol) now, 0⟩ := by
  refine ⟨by decide, by decide, ?_⟩
  intro st a1 a2 p now now' nowStr hk ht
  apply processAlert_of_suppressed
  rw [hk]
  exact shouldSuppress_recordFired st (alertKey a1.UserID a1.Symbol) now now' ht

/-- Witness for `cooldown_key_collision`: a fire recorded for user `a_b`
on symbol `c` silences user `a`'s alert on symbol `b_c` 10 ns later. -/
theorem cooldown_key_collision_witness :
    processAlert (recordFired emptyCooldown (alertKey "a_b" "c") 0)
        ⟨"a", "b_c", none, some 5⟩ ⟨"bn", "b_c", 4, "t"⟩ 10 "t1"
      = ⟨[], recordFired emptyCooldown (alertKey "a_b" "c") 0, 0⟩ :=
  cooldown_key_collision.2.2 emptyCooldown ⟨"a_b", "c", none, some 5⟩
    ⟨"a", "b_c", none, some 5⟩ ⟨"bn", "b_c", 4, "t"⟩ 0 10 "t1"
    (by decide) (by decide)

/-- A `below` event with threshold `th` is among an alert's evaluated events
exactly when the lower threshold is set to `th` and the price is at or
under it. -/
theorem mem_evalAlert_below (a : Alert) (p : PriceUpdate) (nowStr : String)
    (th : ℚ) :
    sendSSEAlert a.UserID p.Symbol th "below" nowStr ∈ evalAlert a p nowStr ↔
      a.LowerThreshold = some th ∧ p.Price ≤ th := by
  constructor
  · intro h
    unfold evalAlert at h
    rcases List.mem_append.1 h with h | h
    · unfold lowerEvents at h
      cases hl : a.LowerThreshold with
      | none => rw [hl] at h; simp at h
      | some lo =>
          rw [hl] at h
          by_cases hc : p.Price ≤ lo
          · simp only [hc, if_true, List.mem_singleton] at h
            have hth : th = lo := congrArg AlertMessage.Threshold h
            subst hth
            exact ⟨rfl, hc⟩
          · simp [hc] at h
    · unfold upperEvents at h
      cases hu : a.UpperThreshold with
      | none => rw [hu] at h; simp at h
      | some hi =>
          rw [hu] at h
          by_cases hc : hi ≤ p.Price
          · simp only [hc, if_true, List.mem_singleton] at h
            have hcontra : ("below" : String) = "above" :=
              congrArg AlertMessage.Triggered h
            exact absurd hcontra (by decide)
          · simp [hc] at h
  · rintro ⟨hl, hc⟩
    unfold evalAlert
    refine List.mem_append.2 (Or.inl ?_)
    unfold lowerEvents
    rw [hl]
    simp [hc]

/-- An `above` event with threshold `th` is among an alert's evaluated events
exactly when the upper threshold is set to `th` and the price is at or
over it. -/
theorem mem_evalAlert_above (a : Alert) (p : PriceUpdate) (nowStr : String)
    (th : ℚ) :
    sendSSEAlert a.UserID p.Symbol th "above" nowStr ∈ evalAlert a p nowStr ↔
      a.UpperThreshold = some th ∧ th ≤ p.Price := by
  constructor
  · intro h
    unfold evalAlert at h
    rcases List.mem_append.1 h with h | h
    · unfold lowerEvents at h
      cases hl : a.LowerThreshold with
      | none => rw [hl] at h; simp at h
      | some lo =>
          rw [hl] at h
          by_cases hc : p.Price ≤ lo
          · simp only [hc, if_true, List.mem_singleton] at h
            have hcontra : ("above" : String) = "below" :=
              congrArg AlertMessage.Triggered h
            exact absurd hcontra (by decide)
          · simp [hc] at h
    · unfold upperEvents at h
      cases hu : a.UpperThreshold with
      | none => rw [hu] at h; simp at h
      | some hi =>
          rw [hu] at h
          by_cases hc : hi ≤ p.Price
          · simp only [hc, if_true, List.mem_singleton] at h
            have hth : th = hi := congrArg AlertMessage.Threshold h
            subst hth
            exact ⟨rfl, hc⟩
          · simp [hc] at h
  · rintro ⟨hu, hc⟩
    unfold evalAlert
    refine List.mem_append.2 (Or.inr ?_)
    unfold upperEvents
    rw [hu]
    simp [hc]

/-- When both branches fire, the evaluated events are exactly the `below`
event followed by the `above` event. -/
theorem evalAlert_both_directions (a : Alert) (p : PriceUpdate)
    (nowStr : String) (lo hi : ℚ) (h1 : a.LowerThreshold = some lo)
    (h2 : p.Price ≤ lo) (h3 : a.UpperThreshold = some hi)
    (h4 : hi ≤ p.Price) :
    evalAlert a p nowStr
      = [sendSSEAlert a.UserID p.Symbol lo "below" nowStr,
         sendSSEAlert a.UserID p.Symbol hi "above" nowStr] := by
  unfold evalAlert lowerEvents upperEvents
  rw [h1, h3]
  simp [h2, h4]

/-- C1: for an alert whose (user, symbol) cooldown has elapsed, a `below`
event carrying the lower threshold is emitted iff the lower threshold is
set and the price is at or under it, an `above` event carrying the upper
threshold is emitted iff the upper threshold is set and the price is at or
over it, and when both hold the alert emits exactly the two events, one
per direction, with no deduplication. -/
theorem evaluate_fires_iff_thresholds (st : CooldownMap) (a : Alert)
    (p : PriceUpdate) (now : ℤ) (nowStr : String)
    (hs : shouldSuppress st (alertKey a.UserID a.Symbol) now = false) :
    (∀ th : ℚ,
      sendSSEAlert a.UserID p.Symbol th "below" nowStr
          ∈ (processAlert st a p now nowStr).events ↔
        a.LowerThreshold = some th ∧ p.Price ≤ th)
    ∧ (∀ th : ℚ,
      sendSSEAlert a.UserID p.Symbol th "above" nowStr
          ∈ (processAlert st a p now nowStr).events ↔
        a.UpperThreshold = some th ∧ th ≤ p.Price)
    ∧ ∀ lo hi : ℚ, a.LowerThreshold = some lo → p.Price ≤ lo →
        a.UpperThreshold = some hi → hi ≤ p.Price →
        (processAlert st a p now nowStr).events
          = [sendSSEAlert a.UserID p.Symbol lo "below" nowStr,
             sendSSEAlert a.UserID p.Symbol hi "above" nowStr] := by
  rw [processAlert_events_of_not_suppressed st a p now nowStr hs]
  exact ⟨mem_evalAlert_below a p nowStr, mem_evalAlert_above a p nowStr,
    evalAlert_both_directions a p nowStr⟩

/-- Witness for `evaluate_fires_iff_thresholds`: with lower 5, upper 3
(upper below lower) and price 4, both directions fire and exactly two
events are emitted. -/
theorem evaluate_fires_iff_thresholds_witness :
    (processAlert emptyCooldown ⟨"u1", "BTC-USD", some 3, some 5⟩
        ⟨"bn", "BTC-USD", 4, "t"⟩ 0 "t0").events
      = [sendSSEAlert "u1" "BTC-USD" 5 "below" "t0",
         sendSSEAlert "u1" "BTC-USD" 3 "above" "t0"] :=
  (evaluate_fires_iff_thresholds emptyCooldown ⟨"u1", "BTC-USD", some 3, some 5⟩
      ⟨"bn", "BTC-USD", 4, "t"⟩ 0 "t0" (by decide)).2.2 5 3
    rfl (by decide) rfl (by decide)

/-- Broadcasting updates each sink by its own non-blocking send, pointwise:
no sink's outcome depends on any other sink's state. -/
theorem broadcastToClients_fst (a : AlertMessage) :
    ∀ clients : List ClientSink,
      (broadcastToClients a clients).1
        = clients.map (fun c => (trySend c a).1) := by
  intro clients
  induction clients with
  | nil => rfl
  | cons c rest ih => simp [broadcastToClients, ih]

/-- The broadcast's drop count is the number of sinks whose buffer was full. -/
theorem broadcastToClients_snd (a : AlertMessage) :
    ∀ clients : List ClientSink,
      (broadcastToClients a clients).2
        = clients.countP (fun c => !decide (c.pending.length < c.capacity)) := by
  intro clients
  induction clients with
  | nil => rfl
  | cons c rest ih =>
      by_cases hc : c.pending.length < c.capacity
      · simp [broadcastToClients, trySend, hc, ih, List.countP_cons]
      · simp [broadcastToClients, trySend, hc, ih, List.countP_cons]
        omega

/-- C4: broadcasting one event treats every sink by its own non-blocking
send — a sink with buffer room receives the event appended to its buffer,
a full sink is left unchanged — so the result for each sink is independent
of every other sink, the drop count equals the number of full sinks, and
in particular with three connected sinks of which the middle one is full,
one broadcast delivers to the two healthy sinks and records exactly one
drop. -/
theorem broadcast_nonblocking_delivery :
    (∀ (clients : List ClientSink) (a : AlertMessage),
      (broadcastToClients a clients).1
          = clients.map (fun c => (trySend c a).1)
      ∧ (broadcastToClients a clients).2
          = clients.countP (fun c => !decide (c.pending.length < c.capacity))
      ∧ ∀ c : ClientSink,
          (trySend c a).1
            = if c.pending.length < c.capacity then
                { c with pending := c.pending ++ [a] }
              else c)
    ∧ broadcastToClients ⟨"u1", "BTC-USD", 5, "below", "t1"⟩
        [⟨1, [], 10⟩, ⟨2, [heartbeatMessage "t0"], 1⟩, ⟨3, [], 10⟩]
        = ([⟨1, [⟨"u1", "BTC-USD", 5, "below", "t1"⟩], 10⟩,
            ⟨2, [heartbeatMessage "t0"], 1⟩,
            ⟨3, [⟨"u1", "BTC-USD", 5, "below", "t1"⟩], 10⟩], 1) := by
  refine ⟨fun clients a => ⟨broadcastToClients_fst a clients,
    broadcastToClients_snd a clients, fun c => ?_⟩, by decide⟩
  by_cases hc : c.pending.length < c.capacity
  · simp [trySend, hc]
  · simp [trySend, hc]

/-- Counterexample to C5 as stated: a heartbeat goroutine that sees a full
buffer on its first tick and a free buffer on its second attempts only the
first send — subsequent ticks are not attempted, contradicting the claim
that heartbeats continue on the fixed interval after a failed enqueue. -/
theorem heartbeat_continues_counterexample :
    ¬ ((heartbeatRun [false, true]).attempts = [false, true].length) := by
  decide

/-- C5 (amended): when a heartbeat tick fails to enqueue, that heartbeat is
dropped and the goroutine exits, so no later tick is attempted for the
connection; the connection itself is never deregistered by the heartbeat
path. Over any run with `pre` free ticks followed by a full-buffer tick,
the goroutine attempts `pre.length + 1` sends, delivers `pre.length`
heartbeats, and performs zero disconnects. -/
theorem heartbeat_drop_exits_without_disconnect (pre post : List Bool)
    (h : ∀ b ∈ pre, b = true) :
    heartbeatRun (pre ++ false :: post)
      = ⟨pre.length + 1, pre.length, 0⟩ := by
  induction pre with
  | nil => simp [heartbeatRun]
  | cons b rest ih =>
      have hb : b = true := h b (by simp)
      have h' : ∀ x ∈ rest, x = true := fun x hx => h x (by simp [hx])
      subst hb
      simp [heartbeatRun, ih h']

/-- Witness for `heartbeat_drop_exits_without_disconnect`: one successful
tick, then a full buffer, then two more ticker ticks that are never
attempted. -/
theorem heartbeat_drop_exits_without_disconnect_witness :
    heartbeatRun ([true] ++ false :: [true, true]) = ⟨2, 1, 0⟩ :=
  heartbeat_drop_exits_without_disconnect [true] [true, true] (by decide)

/-- C7: a heartbeat serialized for client delivery carries the timestamp and
only identity values in every alert field: user id `""`, symbol `""`,
threshold `0`, direction `""`. -/
theorem heartbeat_payload_identity_fields (ts : String) :
    lookupField (marshalAlertMessage (heartbeatMessage ts)) "user_id"
        = some (JsonValue.str "")
    ∧ lookupField (marshalAlertMessage (heartbeatMessage ts)) "symbol"
        = some (JsonValue.str "")
    ∧ lookupField (marshalAlertMessage (heartbeatMessage ts)) "threshold"
        = some (JsonValue.num 0)
    ∧ lookupField (marshalAlertMessage (heartbeatMessage ts)) "triggered"
        = some (JsonValue.str "")
    ∧ lookupField (marshalAlertMessage (heartbeatMessage ts)) "timestamp"
        = some (JsonValue.str ts) :=
  ⟨rfl, rfl, rfl, rfl, rfl⟩

/-- C8: serializing a notification event on the publish side and
deserializing the payload on the subscribe side restores all five fields
exactly. -/
theorem alert_message_roundtrip (a : AlertMessage) :
    unmarshalAlertMessage (marshalAlertMessage a) = some a := rfl

/-- What any single `BroadcastAlert` call observably does: nothing is ever
returned to the caller, and a publish fails (no payload reaches the
transport) exactly when the transport error was logged. -/
theorem broadcastAlert_outcome (tOk : Bool) (a : AlertMessage) :
    (BroadcastAlert tOk a).returnedToCaller = none
    ∧ ((BroadcastAlert tOk a).publishedPayload = none ↔
        (BroadcastAlert tOk a).logged = [PublishErr.transportFailed]) := by
  cases tOk <;> simp [BroadcastAlert]

/-- Counterexample to C6 as stated: with the transport unreachable, the
publish fails (no payload reaches the transport), yet `BroadcastAlert`
returns no error value to its caller — the failure is not reported to the
caller as a returned error. -/
theorem publish_error_returned_counterexample :
    ¬ ((BroadcastAlert false (heartbeatMessage "t")).publishedPayload = none →
       (BroadcastAlert false (heartbeatMessage "t")).returnedToCaller.isSome
         = true) := by
  decide

/-- C6 (amended): a publish failure is logged inside `BroadcastAlert` and
swallowed — the function is void, so no error reaches the caller; the
failure drops only that one notification (its payload never reaches the
transport, and nothing is retried) and is non-fatal: the consume loop
processes every tick regardless of transport outcomes. -/
theorem publish_failure_logged_nonfatal (lookupAlerts : String → List Alert)
    (st : CooldownMap) (ticks : List (PriceUpdate × ℤ × String × Bool)) :
    (consumeLoop lookupAlerts st ticks).1.length = ticks.length
    ∧ ∀ outs ∈ (consumeLoop lookupAlerts st ticks).1, ∀ o ∈ outs,
        o.returnedToCaller = none
        ∧ (o.publishedPayload = none ↔
            o.logged = [PublishErr.transportFailed]) := by
  induction ticks generalizing st with
  | nil => exact ⟨rfl, by simp [consumeLoop]⟩
  | cons t rest ih =>
      obtain ⟨p, now, nowStr, tOk⟩ := t
      constructor
      · simp [consumeLoop, (ih _).1]
      · intro outs houts o ho
        simp only [consumeLoop, List.mem_cons] at houts
        rcases houts with rfl | houts
        · obtain ⟨e, -, rfl⟩ := List.mem_map.1 ho
          exact broadcastAlert_outcome tOk e
        · exact (ih _).2 outs houts o ho

/-- Witness for `publish_failure_logged_nonfatal`: one tick whose publish
transport is down is still fully processed by the loop. -/
theorem publish_failure_logged_nonfatal_witness :
    (consumeLoop (fun _ => [⟨"u1", "BTC-USD", none, some 5⟩]) emptyCooldown
        [(⟨"bn", "BTC-USD", 4, "t"⟩, 0, "t0", false)]).1.length = 1 :=
  (publish_failure_logged_nonfatal (fun _ => [⟨"u1", "BTC-USD", none, some 5⟩])
    emptyCooldown [(⟨"bn", "BTC-USD", 4, "t"⟩, 0, "t0", false)]).1

/-- Under a well-formed operation sequence, the registry's size changes by
exactly one per operation: plus one per connect, minus one per disconnect. -/
theorem applyOps_card (ops : List RegistryOp) :
    ∀ s : Finset ℕ, validOps s ops = true →
      (applyOps s ops).card + countDisconnects ops
        = s.card + countConnects ops := by
  induction ops with
  | nil =>
      intro s _
      simp [applyOps, countConnects, countDisconnects]
  | cons op rest ih =>
      intro s hv
      cases op with
      | connect i =>
          rw [validOps, Bool.and_eq_true, decide_eq_true_eq] at hv
          obtain ⟨hi, hrest⟩ := hv
          have hcard := ih (insert i s) hrest
          have hins : (insert i s).card = s.card + 1 :=
            Finset.card_insert_of_not_mem hi
          simp [applyOps, applyOp, countConnects, countDisconnects,
            List.countP_cons] at hcard ⊢
          omega
      | disconnect i =>
          rw [validOps, Bool.and_eq_true, decide_eq_true_eq] at hv
          obtain ⟨hi, hrest⟩ := hv
          have hcard := ih (s.erase i) hrest
          have hpos : 1 ≤ s.card := Finset.card_pos.2 ⟨i, hi⟩
          have hers : (s.erase i).card = s.card - 1 :=
            Finset.card_erase_of_mem hi
          simp [applyOps, applyOp, countConnects, countDisconnects,
            List.countP_cons] at hcard ⊢
          omega

/-- C9: for any sequence of connects and disconnects in which each connect
registers a fresh channel and each disconnect removes a currently
registered one, the registry's visible connected count is the number of
connects not yet matched by a disconnect. -/
theorem registry_count_matches_connects (ops : List RegistryOp)
    (h : validOps ∅ ops = true) :
    (applyOps ∅ ops).card = countConnects ops - countDisconnects ops
    ∧ (applyOps ∅ ops).card + countDisconnects ops = countConnects ops := by
  have hcard := applyOps_card ops ∅ h
  rw [Finset.card_empty] at hcard
  omega

/-- Witness for `registry_count_matches_connects`: after three connects and
one disconnect of a connected sink, the visible count is two. -/
theorem registry_count_matches_connects_witness :
    (applyOps ∅ [RegistryOp.connect 1, RegistryOp.connect 2,
        RegistryOp.disconnect 1, RegistryOp.connect 3]).card
      = countConnects [RegistryOp.connect 1, RegistryOp.connect 2,
            RegistryOp.disconnect 1, RegistryOp.connect 3]
        - countDisconnects [RegistryOp.connect 1, RegistryOp.connect 2,
            RegistryOp.disconnect 1, RegistryOp.connect 3] :=
  (registry_count_matches_connects [RegistryOp.connect 1, RegistryOp.connect 2,
    RegistryOp.disconnect 1, RegistryOp.connect 3] (by decide)).1

end PriceAggregator
